import Mathlib

/-!
# Verification of the federated chat server core

A shallow embedding of `src/rust/src/main.rs`: the line parser, the shared
`Server` directory, the client-session operations and the peer-session
(federation) operations.  Rust `HashMap`s are modelled as association lists
with replace-on-insert semantics, `HashSet`s as duplicate-free lists, and the
unbounded mpsc channels as emitted effect lists (one `Effect` per `send`).
Socket addresses are modelled as strings; `SocketAddr` parsing (done by the
Rust standard library, outside this repository) is passed in as an explicit
`parseAddr` argument where the code uses it.
-/

namespace ChatServer

/-- Socket addresses, abstracted to their textual form. -/
abbrev Addr := String

/-- Identifier of a client session's delivery queue (Rust `ClientChannel`). -/
abbrev ClientEp := Nat

/-- Identifier of a peer session's delivery queue (Rust `ServerChannel`). -/
abbrev ServerEp := Nat

/-! ## String helpers (Rust `str::split_once`, `str::split(", ")`) -/

/-- Split a character list at the first occurrence of `sep`. -/
def splitOnceAux (sep : Char) : List Char → Option (List Char × List Char)
  | [] => none
  | c :: cs =>
    if c = sep then some ([], cs)
    else (splitOnceAux sep cs).map fun p => (c :: p.1, p.2)

/-- Rust `str::split_once(sep)`: split at the first occurrence of `sep`;
`none` when `sep` does not occur. -/
def splitOnce (s : String) (sep : Char) : Option (String × String) :=
  (splitOnceAux sep s.toList).map fun p => (⟨p.1⟩, ⟨p.2⟩)

/-- Split a character list on every occurrence of the two-character
separator `", "` (Rust `str::split(", ")`); the accumulator holds the
current piece reversed. -/
def splitCommaSpaceAux : List Char → List Char → List (List Char)
  | acc, [] => [acc.reverse]
  | acc, [c] => [(c :: acc).reverse]
  | acc, ',' :: ' ' :: cs => acc.reverse :: splitCommaSpaceAux [] cs
  | acc, c :: cs => splitCommaSpaceAux (c :: acc) cs

/-- Rust `channels.split(", ")` as used by `fed_channels`. -/
def splitChannels (s : String) : List String :=
  (splitCommaSpaceAux [] s.toList).map fun l => ⟨l⟩

/-! ## Request types and parsers (`ClientRequest`, `ServerRequest`, parsing) -/

/-- Rust `enum ClientRequest`. -/
inductive ClientRequest where
  | Register (username password : String)
  | Login (username password : String)
  | Join (channel : String)
  | Create (channel : String)
  | Say (channel message : String)
  | Channels
deriving DecidableEq, Repr

/-- Rust `enum ServerResult` (the payload of a `FEDRESULT` record). -/
inductive ServerResult where
  | Join (user channel status : String)
  | Say (user channel status msg : String)
deriving DecidableEq, Repr

/-- Rust `enum ServerRequest` (federation records). -/
inductive ServerRequest where
  | Out
  | Confirm
  | Channels (channels : String)
  | New (channel : String)
  | Join (user channel : String)
  | Say (user channel msg : String)
  | Recv (to_user from_user channel msg : String)
  | Result (r : ServerResult)
deriving DecidableEq, Repr

/-- Rust `enum Request`. -/
inductive Request where
  | Client (r : ClientRequest)
  | Server (r : ServerRequest)
deriving DecidableEq, Repr

/-- Rust `fn two`: split `input` on the first space and require the second
part to contain no further space. -/
def two (input : String) : Option (String × String) :=
  (splitOnce input ' ').filter fun p => !(p.2.contains ' ')

/-- Rust `fn parse_client`. -/
def parse_client (input : String) : Option ClientRequest :=
  let p := (splitOnce input ' ').getD (input, "")
  match p.1, p.2 with
  | "REGISTER", args => (two args).map fun q => ClientRequest.Register q.1 q.2
  | "LOGIN", args => (two args).map fun q => ClientRequest.Login q.1 q.2
  | "JOIN", args => if args.contains ' ' then none else some (ClientRequest.Join args)
  | "CREATE", args => if args.contains ' ' then none else some (ClientRequest.Create args)
  | "SAY", args => (splitOnce args ' ').map fun q => ClientRequest.Say q.1 q.2
  | "CHANNELS", _ => some ClientRequest.Channels
  | _, _ => none

/-- Rust `fn parse_server`.  Note: the verb matched for the federate-out
request is the literal `"FEDOUT"`, exactly as in the source. -/
def parse_server (input : String) : Option ServerRequest :=
  let p := (splitOnce input ' ').getD (input, "")
  match p.1, p.2 with
  | "FEDOUT", _ => some ServerRequest.Out
  | "FEDCONFIRM", _ => some ServerRequest.Confirm
  | "FEDCHANNELS", args => some (ServerRequest.Channels args)
  | "FEDNEW", args =>
    if args.contains ' ' then none else some (ServerRequest.New args)
  | "FEDJOIN", args => (two args).map fun q => ServerRequest.Join q.1 q.2
  | "FEDSAY", args =>
    (splitOnce args ' ').bind fun q =>
      (splitOnce q.2 ' ').map fun q2 => ServerRequest.Say q.1 q2.1 q2.2
  | "FEDRECV", args =>
    (splitOnce args ' ').bind fun q =>
      (splitOnce q.2 ' ').bind fun q2 =>
        (splitOnce q2.2 ' ').map fun q3 => ServerRequest.Recv q.1 q2.1 q3.1 q3.2
  | "FEDRESULT", args =>
    (splitOnce args ' ').bind fun q =>
      (splitOnce q.2 ' ').bind fun q2 =>
        (splitOnce q2.2 ' ').bind fun q3 =>
          match q2.1 with
          | "JOIN" =>
            if q3.2 = "0" ∨ q3.2 = "1" then
              some (ServerRequest.Result (ServerResult.Join q.1 q3.1 q3.2))
            else none
          | "SAY" =>
            (splitOnce q3.2 ' ').bind fun q4 =>
              if q4.1 = "0" ∨ q4.1 = "1" then
                some (ServerRequest.Result (ServerResult.Say q.1 q3.1 q4.1 q4.2))
              else none
          | _ => none
  | _, _ => none

/-- Rust `fn parse`: try the client parser first, then the federation
parser. -/
def parse (input : String) : Option Request :=
  match parse_client input with
  | some r => some (Request.Client r)
  | none => (parse_server input).map Request.Server

/-! ## Association-list maps (model of Rust `HashMap` / `HashSet`) -/

/-- `HashMap::get`: first (and, by construction, only) binding of `k`. -/
def alookup {α β : Type} [DecidableEq α] (k : α) : List (α × β) → Option β
  | [] => none
  | p :: t => if p.1 = k then some p.2 else alookup k t

/-- `HashMap::insert`: bind `k` to `v`, replacing any previous binding. -/
def ainsert {α β : Type} [DecidableEq α] (k : α) (v : β) (l : List (α × β)) :
    List (α × β) :=
  (k, v) :: l.filter fun p => decide (p.1 ≠ k)

/-- `HashMap::remove`: drop every binding of `k` (at most one exists). -/
def aerase {α β : Type} [DecidableEq α] (k : α) (l : List (α × β)) :
    List (α × β) :=
  l.filter fun p => decide (p.1 ≠ k)

/-- `HashMap::contains_key`. -/
def acontains {α β : Type} [DecidableEq α] (k : α) (l : List (α × β)) : Bool :=
  (alookup k l).isSome

/-- `HashSet::insert` on a duplicate-free list. -/
def insertSet (x : String) (l : List String) : List String :=
  if x ∈ l then l else x :: l

/-! ## Directory state (Rust structs `Server`, `Channel`, connections) -/

/-- Rust `enum Response`: the awaited-response kind keying a pending
callback. -/
inductive Response where
  | Join (channel : String)
  | Say (channel message : String)
deriving DecidableEq, Repr

/-- Rust `enum ServerMessage`: an item on a peer session's delivery queue. -/
inductive ServerMessage where
  | Message (msg : String)
  | CallbackMessage (channel : ClientEp) (user : String) (response : Response)
      (message : String)
deriving DecidableEq, Repr

/-- Rust `enum User`: a channel membership. -/
inductive User where
  | Local (channel : ClientEp)
  | Remote (channel : ServerEp)
deriving DecidableEq, Repr

/-- Rust `struct Channel`. -/
structure Channel where
  users : List (String × User)
deriving DecidableEq, Repr

/-- Rust `struct RemoteServer`: a registered peer with its advertised
channel set. -/
structure RemoteServer where
  channel : ServerEp
  channels : List String
deriving DecidableEq, Repr

/-- Rust `struct Server`: the shared directory. -/
structure Server where
  port : Nat
  users : List (String × String)
  user_conns : List (String × ClientEp)
  channels : List (String × Channel)
  servers : List (Addr × RemoteServer)
deriving DecidableEq, Repr

/-- Rust `Server::new`. -/
def Server.new (port : Nat) : Server :=
  { port, users := [], user_conns := [], channels := [], servers := [] }

/-- Rust `struct ClientConnection`. -/
structure ClientConnection where
  username : Option String
  channel : ClientEp
  server_addr : Addr
deriving DecidableEq, Repr

/-- Rust `struct ServerConnection`. -/
structure ServerConnection where
  channel : ServerEp
  server_addr : Addr
  callbacks : List ((String × Response) × ClientEp)
deriving DecidableEq, Repr

/-- An enqueue performed via an mpsc sender (`.send(...)` in the source). -/
inductive Effect where
  | toClient (ep : ClientEp) (msg : String)
  | toServer (ep : ServerEp) (msg : ServerMessage)
deriving DecidableEq, Repr

/-- Rust `status as i8` interpolated into a reply. -/
def statusStr (b : Bool) : String := if b then "1" else "0"

/-! ## Client-session operations -/

/-- Rust `fn register`. -/
def register (s : Server) (username password : String) : Server × String :=
  if acontains username s.users then (s, "RESULT REGISTER 0\n")
  else ({ s with users := ainsert username password s.users },
        "RESULT REGISTER 1\n")

/-- Rust `fn login`: binds the identity on the connection only. -/
def login (s : Server) (conn : ClientConnection) (username password : String) :
    ClientConnection × String :=
  match alookup username s.users with
  | some pass =>
    if pass = password then
      ({ conn with username := some username }, "RESULT LOGIN 1\n")
    else (conn, "RESULT LOGIN 0\n")
  | none => (conn, "RESULT LOGIN 0\n")

/-- Rust `fn join` (with its nested `_join` inlined).  The middle component
collects the enqueues; the inner `Option Unit` is `_join`'s return value,
mapped to the reply status by `map_or(0, |_| 1)`. -/
def join (parseAddr : String → Option Addr) (s : Server)
    (conn : ClientConnection) (channel : String) :
    Server × List Effect × String :=
  let r : Server × List Effect × Option Unit :=
    match conn.username with
    | none => (s, [], none)
    | some username =>
      match splitOnce channel ':' with
      | some (ch, remote) =>
        match parseAddr remote with
        | none => (s, [], none)
        | some a =>
          match alookup a s.servers with
          | none => (s, [], none)
          | some r =>
            let message :=
              "FEDJOIN " ++ username ++ "@" ++ conn.server_addr ++ " " ++ ch ++ "\n"
            (s, [Effect.toServer r.channel
                  (ServerMessage.CallbackMessage conn.channel username
                    (Response.Join ch) message)], none)
      | none =>
        match alookup channel s.channels with
        | none => (s, [], none)
        | some c =>
          if acontains username c.users then (s, [], none)
          else
            let c' := Channel.mk (ainsert username (User.Local conn.channel) c.users)
            ({ s with channels := ainsert channel c' s.channels }, [], some ())
  (r.1, r.2.1,
   "RESULT JOIN " ++ channel ++ " " ++
     (match r.2.2 with | none => "0" | some _ => "1") ++ "\n")

/-- Rust `fn create`. -/
def create (s : Server) (channel : String) : Server × List Effect × String :=
  if acontains channel s.channels then
    (s, [], "RESULT CREATE " ++ channel ++ " 0\n")
  else
    let s' := { s with channels := ainsert channel ⟨[]⟩ s.channels }
    let alert := "FEDNEW " ++ channel ++ "\n"
    (s',
     s'.servers.map fun p =>
       Effect.toServer p.2.channel (ServerMessage.Message alert),
     "RESULT CREATE " ++ channel ++ " 1\n")

/-- Rust `fn _say`: the fan-out.  Returns the enqueues and the status. -/
def _say (s : Server) (username channel_name msg : String) :
    List Effect × Bool :=
  match alookup channel_name s.channels with
  | none => ([], false)
  | some c =>
    if acontains username c.users then
      let local_message :=
        "RECV " ++ username ++ " " ++ channel_name ++ " " ++ msg ++ "\n"
      (c.users.map fun p =>
        match p.2 with
        | User.Local channel => Effect.toClient channel local_message
        | User.Remote channel =>
          Effect.toServer channel (ServerMessage.Message
            ("FEDRECV " ++ p.1 ++ " " ++ username ++ " " ++ channel_name ++
              " " ++ msg ++ "\n")),
       true)
    else ([], false)

/-- Rust `fn say`. -/
def say (s : Server) (conn : ClientConnection) (channel msg : String) :
    List Effect × String :=
  let r : List Effect × Bool :=
    match conn.username with
    | some un => _say s un channel msg
    | none => ([], false)
  (r.1, "RESULT SAY " ++ channel ++ " " ++ statusStr r.2 ++ "\n")

/-- Rust `fn list_channels`: the `" name,"` pieces with the final comma
popped, then `'\n'`. -/
def list_channels (s : Server) : String :=
  let body := s.channels.foldl (fun acc p => acc ++ " " ++ p.1 ++ ",") ""
  (if s.channels.isEmpty then body else body.dropRight 1) ++ "\n"

/-- Rust `fn channels`. -/
def channels (s : Server) : String :=
  "RESULT CHANNELS" ++ list_channels s

/-! ## Peer-session operations

`fed_channels` and `fed_new` contain a `panic!()` branch; their result type
is wrapped in an outer `Option` where `none` models reaching that abort. -/

/-- Rust `fn fed_out`. -/
def fed_out (s : Server) (conn : ServerConnection) : Server × Option String :=
  let r := RemoteServer.mk conn.channel []
  ({ s with servers := ainsert conn.server_addr r s.servers },
   some "FEDCONFIRM\n")

/-- Rust `fn fed_confirm`. -/
def fed_confirm (s : Server) (conn : ServerConnection) : Server × Option String :=
  let r := RemoteServer.mk conn.channel []
  let s' := { s with servers := ainsert conn.server_addr r s.servers }
  (s', some ("FEDCHANNELS" ++ list_channels s'))

/-- Rust `fn fed_channels`; outer `none` is the `panic!()` branch. -/
def fed_channels (s : Server) (conn : ServerConnection) (channels : String) :
    Option (Server × Option String) :=
  match alookup conn.server_addr s.servers with
  | none => none
  | some remote =>
    let cs := (splitChannels channels).foldl (fun acc c => insertSet c acc)
      remote.channels
    let remote' := { remote with channels := cs }
    some ({ s with servers := ainsert conn.server_addr remote' s.servers }, none)

/-- Rust `fn fed_new`; outer `none` is the `panic!()` branch. -/
def fed_new (s : Server) (conn : ServerConnection) (channel : String) :
    Option (Server × Option String) :=
  match alookup conn.server_addr s.servers with
  | none => none
  | some remote =>
    let remote' := { remote with channels := insertSet channel remote.channels }
    some ({ s with servers := ainsert conn.server_addr remote' s.servers }, none)

/-- Rust `fn fed_join` (with its nested `_join` inlined). -/
def fed_join (s : Server) (conn : ServerConnection) (user channel : String) :
    Server × Option String :=
  let r : Server × Bool :=
    match alookup channel s.channels with
    | none => (s, false)
    | some c =>
      if acontains user c.users then (s, false)
      else
        let c' := Channel.mk (ainsert user (User.Remote conn.channel) c.users)
        ({ s with channels := ainsert channel c' s.channels }, true)
  (r.1,
   some ("FEDRESULT " ++ user ++ " JOIN " ++ channel ++ " " ++ statusStr r.2 ++ "\n"))

/-- Rust `fn fed_say`.  The source calls
`_say(server, &user.to_string(), user, channel)`, i.e. it passes `user` as
the channel name and `channel` as the message, and drops `msg` from the
fan-out; this is embedded exactly as written. -/
def fed_say (s : Server) (user channel msg : String) :
    List Effect × Option String :=
  let r := _say s user user channel
  (r.1,
   some ("FEDRESULT " ++ user ++ " SAY " ++ channel ++ " " ++ statusStr r.2 ++
     " " ++ msg ++ "\n"))

/-- Rust `fn fed_recv`. -/
def fed_recv (s : Server) (to_user from_user channel msg : String) :
    List Effect × Option String :=
  match alookup to_user s.user_conns with
  | some conn =>
    ([Effect.toClient conn
        ("RECV " ++ from_user ++ " " ++ channel ++ " " ++ msg ++ "\n")], none)
  | none => ([], none)

/-- Rust `fn fed_result_join`. -/
def fed_result_join (conn : ServerConnection) (user channel status : String) :
    ServerConnection × List Effect :=
  let key : String × Response := (user, Response.Join channel)
  match alookup key conn.callbacks with
  | some sender =>
    ({ conn with callbacks := aerase key conn.callbacks },
     [Effect.toClient sender
        ("RESULT JOIN " ++ channel ++ " " ++ status ++ "\n")])
  | none => (conn, [])

/-- Rust `fn fed_result_say`. -/
def fed_result_say (conn : ServerConnection)
    (user channel status msg : String) : ServerConnection × List Effect :=
  let key : String × Response := (user, Response.Say channel msg)
  match alookup key conn.callbacks with
  | some sender =>
    ({ conn with callbacks := aerase key conn.callbacks },
     [Effect.toClient sender
        ("RESULT SAY " ++ channel ++ " " ++ msg ++ " " ++ status ++ "\n")])
  | none => (conn, [])

/-! ## Dispatch (the per-request parts of `process_server` / `process_client`) -/

/-- Rust `fn process_server_request`: dispatch one federation record.
Returns the updated directory, the updated connection, the enqueues, and the
records written to this session's own socket; outer `none` propagates the
`panic!()` of `fed_channels` / `fed_new`. -/
def process_server_request (s : Server) (conn : ServerConnection)
    (req : ServerRequest) :
    Option (Server × ServerConnection × List Effect × List String) :=
  match req with
  | ServerRequest.Out =>
    let r := fed_out s conn
    some (r.1, conn, [], r.2.toList)
  | ServerRequest.Confirm =>
    let r := fed_confirm s conn
    some (r.1, conn, [], r.2.toList)
  | ServerRequest.Channels chs =>
    (fed_channels s conn chs).map fun r => (r.1, conn, [], r.2.toList)
  | ServerRequest.New ch =>
    (fed_new s conn ch).map fun r => (r.1, conn, [], r.2.toList)
  | ServerRequest.Join u ch =>
    let r := fed_join s conn u ch
    some (r.1, conn, [], r.2.toList)
  | ServerRequest.Say u ch m =>
    let r := fed_say s u ch m
    some (s, conn, r.1, r.2.toList)
  | ServerRequest.Recv t f ch m =>
    let r := fed_recv s t f ch m
    some (s, conn, r.1, r.2.toList)
  | ServerRequest.Result (ServerResult.Join u ch st) =>
    let r := fed_result_join conn u ch st
    some (s, r.1, r.2, [])
  | ServerRequest.Result (ServerResult.Say u ch st m) =>
    let r := fed_result_say conn u ch st m
    some (s, r.1, r.2, [])

/-- Rust `fn process_client_request`: dispatch one client record; the reply
is always written to the socket. -/
def process_client_request (parseAddr : String → Option Addr) (s : Server)
    (conn : ClientConnection) (req : ClientRequest) :
    Server × ClientConnection × List Effect × List String :=
  match req with
  | ClientRequest.Register u p =>
    let r := register s u p
    (r.1, conn, [], [r.2])
  | ClientRequest.Login u p =>
    let r := login s conn u p
    (s, r.1, [], [r.2])
  | ClientRequest.Join ch =>
    let r := join parseAddr s conn ch
    (r.1, conn, r.2.1, [r.2.2])
  | ClientRequest.Create ch =>
    let r := create s ch
    (r.1, conn, r.2.1, [r.2.2])
  | ClientRequest.Say ch m =>
    let r := say s conn ch m
    (s, conn, r.1, [r.2])
  | ClientRequest.Channels => (s, conn, [], [channels s])

/-- The two addresses of a connected socket. -/
structure SocketInfo where
  localAddr : Addr
  remoteAddr : Addr
deriving DecidableEq, Repr

/-- The `ServerConnection` built at the top of `process_server`: the source
keys the session by `lines.get_ref().get_ref().local_addr()`, the *near-side*
address of the socket. -/
def init_server_connection (sock : SocketInfo) (ep : ServerEp) :
    ServerConnection :=
  { channel := ep, server_addr := sock.localAddr, callbacks := [] }

/-- Draining one item from a peer session's delivery queue
(`process_server`'s `receiver.recv()` arm): a plain record is written to the
socket; a callback-arming record is written to the socket and its callback
entry installed. -/
def drain_server_message (conn : ServerConnection) (msg : ServerMessage) :
    ServerConnection × List String :=
  match msg with
  | ServerMessage.Message m => (conn, [m])
  | ServerMessage.CallbackMessage channel user response message =>
    ({ conn with callbacks := ainsert (user, response) channel conn.callbacks },
     [message])

/-! ## Whole-program directory transitions

Every mutation of the shared `Server` performed anywhere in the program is
one of the operations below (the remaining code only reads the directory or
touches per-connection state).  `applyOp` extracts the directory component
of each operation; a reachable directory is `run ops (Server.new port)`. -/

/-- One directory-touching operation of the program. -/
inductive Op where
  | register (u p : String)
  | login (conn : ClientConnection) (u p : String)
  | join (parseAddr : String → Option Addr) (conn : ClientConnection)
      (channel : String)
  | create (channel : String)
  | say (conn : ClientConnection) (channel msg : String)
  | channelsQuery
  | fed_out (conn : ServerConnection)
  | fed_confirm (conn : ServerConnection)
  | fed_channels (conn : ServerConnection) (chs : String)
  | fed_new (conn : ServerConnection) (channel : String)
  | fed_join (conn : ServerConnection) (user channel : String)
  | fed_say (user channel msg : String)
  | fed_recv (to_user from_user channel msg : String)
  | fed_result_join (conn : ServerConnection) (user channel status : String)
  | fed_result_say (conn : ServerConnection) (user channel status msg : String)

/-- The directory after one operation (a `panic!()` leaves it as is). -/
def applyOp (s : Server) : Op → Server
  | Op.register u p => (register s u p).1
  | Op.login _ _ _ => s
  | Op.join pa conn ch => (join pa s conn ch).1
  | Op.create ch => (create s ch).1
  | Op.say _ _ _ => s
  | Op.channelsQuery => s
  | Op.fed_out conn => (fed_out s conn).1
  | Op.fed_confirm conn => (fed_confirm s conn).1
  | Op.fed_channels conn chs =>
    match fed_channels s conn chs with
    | some r => r.1
    | none => s
  | Op.fed_new conn ch =>
    match fed_new s conn ch with
    | some r => r.1
    | none => s
  | Op.fed_join conn u ch => (fed_join s conn u ch).1
  | Op.fed_say _ _ _ => s
  | Op.fed_recv _ _ _ _ => s
  | Op.fed_result_join _ _ _ _ => s
  | Op.fed_result_say _ _ _ _ _ => s

/-- The directory after a sequence of operations. -/
def run (ops : List Op) (s : Server) : Server := ops.foldl applyOp s

/-! ## Association-list lemmas -/

theorem aerase_cons_self {α β : Type} [DecidableEq α] {k : α} {p : α × β}
    (h : p.1 = k) (t : List (α × β)) : aerase k (p :: t) = aerase k t := by
  simp [aerase, List.filter_cons, h]

theorem aerase_cons_ne {α β : Type} [DecidableEq α] {k : α} {p : α × β}
    (h : p.1 ≠ k) (t : List (α × β)) : aerase k (p :: t) = p :: aerase k t := by
  simp [aerase, List.filter_cons, h]

theorem alookup_aerase_self {α β : Type} [DecidableEq α] (k : α)
    (l : List (α × β)) : alookup k (aerase k l) = none := by
  induction l with
  | nil => rfl
  | cons p t ih =>
    by_cases h : p.1 = k
    · rw [aerase_cons_self h]; exact ih
    · rw [aerase_cons_ne h]; simp [alookup, h, ih]

theorem alookup_aerase_ne {α β : Type} [DecidableEq α] {a k : α} (h : a ≠ k)
    (l : List (α × β)) : alookup a (aerase k l) = alookup a l := by
  induction l with
  | nil => rfl
  | cons p t ih =>
    by_cases hp : p.1 = k
    · have hpa : p.1 ≠ a := by rw [hp]; exact fun hc => h hc.symm
      rw [aerase_cons_self hp, ih]
      simp [alookup, hpa]
    · rw [aerase_cons_ne hp]
      by_cases hpa : p.1 = a <;> simp [alookup, hpa, ih]

theorem ainsert_eq_cons {α β : Type} [DecidableEq α] (k : α) (v : β)
    (l : List (α × β)) : ainsert k v l = (k, v) :: aerase k l := rfl

theorem alookup_ainsert_self {α β : Type} [DecidableEq α] (k : α) (v : β)
    (l : List (α × β)) : alookup k (ainsert k v l) = some v := by
  simp [ainsert_eq_cons, alookup]

theorem alookup_ainsert_ne {α β : Type} [DecidableEq α] {a k : α} (h : a ≠ k)
    (v : β) (l : List (α × β)) : alookup a (ainsert k v l) = alookup a l := by
  have hka : k ≠ a := fun hc => h hc.symm
  rw [ainsert_eq_cons]
  simp [alookup, hka, alookup_aerase_ne h]

theorem alookup_ainsert_isSome {α β : Type} [DecidableEq α] (a k : α) (v : β)
    (l : List (α × β)) (h : (alookup a l).isSome = true) :
    (alookup a (ainsert k v l)).isSome = true := by
  by_cases hak : a = k
  · subst hak; simp [alookup_ainsert_self]
  · rw [alookup_ainsert_ne hak]; exact h

/-! ## Directory-shape lemmas for the transition system -/

theorem join_fst_user_conns (pa : String → Option Addr) (s : Server)
    (conn : ClientConnection) (ch : String) :
    (join pa s conn ch).1.user_conns = s.user_conns := by
  unfold join
  repeat' split
  all_goals rfl

theorem join_fst_servers (pa : String → Option Addr) (s : Server)
    (conn : ClientConnection) (ch : String) :
    (join pa s conn ch).1.servers = s.servers := by
  unfold join
  repeat' split
  all_goals rfl

theorem fed_join_fst_user_conns (s : Server) (conn : ServerConnection)
    (u ch : String) : (fed_join s conn u ch).1.user_conns = s.user_conns := by
  unfold fed_join
  repeat' split
  all_goals rfl

theorem fed_join_fst_servers (s : Server) (conn : ServerConnection)
    (u ch : String) : (fed_join s conn u ch).1.servers = s.servers := by
  unfold fed_join
  repeat' split
  all_goals rfl

theorem fed_channels_run_user_conns (s : Server) (conn : ServerConnection)
    (chs : String) :
    (match fed_channels s conn chs with
      | some r => r.1
      | none => s).user_conns = s.user_conns := by
  unfold fed_channels
  cases alookup conn.server_addr s.servers <;> rfl

theorem fed_new_run_user_conns (s : Server) (conn : ServerConnection)
    (ch : String) :
    (match fed_new s conn ch with
      | some r => r.1
      | none => s).user_conns = s.user_conns := by
  unfold fed_new
  cases alookup conn.server_addr s.servers <;> rfl

theorem fed_channels_run_servers_mono (s : Server) (conn : ServerConnection)
    (chs : String) (a : Addr) (h : (alookup a s.servers).isSome = true) :
    (alookup a (match fed_channels s conn chs with
      | some r => r.1
      | none => s).servers).isSome = true := by
  unfold fed_channels
  cases alookup conn.server_addr s.servers with
  | none => exact h
  | some remote => exact alookup_ainsert_isSome _ _ _ _ h

theorem fed_new_run_servers_mono (s : Server) (conn : ServerConnection)
    (ch : String) (a : Addr) (h : (alookup a s.servers).isSome = true) :
    (alookup a (match fed_new s conn ch with
      | some r => r.1
      | none => s).servers).isSome = true := by
  unfold fed_new
  cases alookup conn.server_addr s.servers with
  | none => exact h
  | some remote => exact alookup_ainsert_isSome _ _ _ _ h

theorem applyOp_user_conns (op : Op) (s : Server) :
    (applyOp s op).user_conns = s.user_conns := by
  cases op with
  | register u p =>
    show (register s u p).1.user_conns = s.user_conns
    unfold register; split <;> rfl
  | create ch =>
    show (create s ch).1.user_conns = s.user_conns
    unfold create; split <;> rfl
  | join pa conn ch => exact join_fst_user_conns pa s conn ch
  | fed_join conn u ch => exact fed_join_fst_user_conns s conn u ch
  | fed_out conn => rfl
  | fed_confirm conn => rfl
  | fed_channels conn chs => exact fed_channels_run_user_conns s conn chs
  | fed_new conn ch => exact fed_new_run_user_conns s conn ch
  | login conn u p => rfl
  | say conn ch m => rfl
  | channelsQuery => rfl
  | fed_say u ch m => rfl
  | fed_recv t f ch m => rfl
  | fed_result_join conn u ch st => rfl
  | fed_result_say conn u ch st m => rfl

theorem applyOp_servers_mono (op : Op) (s : Server) (a : Addr)
    (h : (alookup a s.servers).isSome = true) :
    (alookup a (applyOp s op).servers).isSome = true := by
  cases op with
  | register u p =>
    show (alookup a (register s u p).1.servers).isSome = true
    unfold register; split <;> exact h
  | create ch =>
    show (alookup a (create s ch).1.servers).isSome = true
    unfold create; split <;> exact h
  | join pa conn ch =>
    show (alookup a (join pa s conn ch).1.servers).isSome = true
    rw [join_fst_servers]; exact h
  | fed_join conn u ch =>
    show (alookup a (fed_join s conn u ch).1.servers).isSome = true
    rw [fed_join_fst_servers]; exact h
  | fed_out conn => exact alookup_ainsert_isSome _ _ _ _ h
  | fed_confirm conn => exact alookup_ainsert_isSome _ _ _ _ h
  | fed_channels conn chs => exact fed_channels_run_servers_mono s conn chs a h
  | fed_new conn ch => exact fed_new_run_servers_mono s conn ch a h
  | login conn u p => exact h
  | say conn ch m => exact h
  | channelsQuery => exact h
  | fed_say u ch m => exact h
  | fed_recv t f ch m => exact h
  | fed_result_join conn u ch st => exact h
  | fed_result_say conn u ch st m => exact h

theorem run_user_conns (ops : List Op) (s : Server) :
    (run ops s).user_conns = s.user_conns := by
  induction ops generalizing s with
  | nil => rfl
  | cons op t ih =>
    show (run t (applyOp s op)).user_conns = s.user_conns
    rw [ih, applyOp_user_conns]

theorem run_servers_mono (ops : List Op) (s : Server) (a : Addr)
    (h : (alookup a s.servers).isSome = true) :
    (alookup a (run ops s).servers).isSome = true := by
  induction ops generalizing s with
  | nil => exact h
  | cons op t ih =>
    exact ih (applyOp s op) (applyOp_servers_mono op s a h)

/-! ## Concrete fixtures used by witnesses and counterexamples -/

/-- Address parsing used in concrete examples: every string is accepted as
its own address. -/
def idParse : String → Option Addr := fun a => some a

def c2Server : Server :=
  { port := 0, users := [("alice", "pw")], user_conns := [],
    channels := [], servers := [("9.9.9.9:1000", RemoteServer.mk 7 [])] }

def c2Conn : ClientConnection :=
  { username := some "alice", channel := 3, server_addr := "1.1.1.1:4000" }

def c3Conn : ServerConnection :=
  { channel := 6, server_addr := "5.5.5.5:1", callbacks := [] }

def c4Server : Server :=
  { port := 0, users := [], user_conns := [],
    channels := [("lobby", Channel.mk [("alice", User.Local 0)])],
    servers := [] }

def c6Sock : SocketInfo :=
  { localAddr := "2.2.2.2:10", remoteAddr := "3.3.3.3:20" }

/-! ## Claims -/

/-- C1: the federation parser does NOT classify the verb `FEDERATEOUT` as
the federate-out request: `parse_server` (and hence `parse`) rejects the
bootstrap record `FEDERATEOUT` that `main` writes when dialing a peer; the
verb the parser actually accepts is the literal `FEDOUT`. -/
theorem C1_parse_server_rejects_federateout :
    parse_server "FEDERATEOUT" = none ∧ parse "FEDERATEOUT" = none ∧
    parse_server "FEDOUT" = some ServerRequest.Out :=
  ⟨rfl, rfl, rfl⟩

/-- C2 counterexample: a logged-in session joining `room:9.9.9.9:1000`,
where the address parses and names a known peer, receives an immediate
`RESULT JOIN room:9.9.9.9:1000 0\n` write on its socket — the claim says no
immediate RESULT JOIN is sent. -/
theorem C2_counterexample :
    (process_client_request idParse c2Server c2Conn
      (ClientRequest.Join "room:9.9.9.9:1000")).2.2.2 =
      ["RESULT JOIN room:9.9.9.9:1000 0\n"] := rfl

/-- C2 amended: for a remote join whose address parses and names a known
peer, `join` leaves the directory unchanged, enqueues exactly the
callback-arming message on the peer's queue, and ALSO returns the immediate
reply `RESULT JOIN target 0\n` (the remote path of `_join` yields `None`,
which `map_or(0, |_| 1)` turns into status 0). -/
theorem C2_remote_join_replies_zero_and_arms_callback
    (parseAddr : String → Option Addr) (s : Server) (conn : ClientConnection)
    (target ch rest : String) (u : String) (a : Addr) (r : RemoteServer)
    (hu : conn.username = some u)
    (hsplit : splitOnce target ':' = some (ch, rest))
    (hparse : parseAddr rest = some a)
    (hserv : alookup a s.servers = some r) :
    join parseAddr s conn target =
      (s, [Effect.toServer r.channel
            (ServerMessage.CallbackMessage conn.channel u (Response.Join ch)
              ("FEDJOIN " ++ u ++ "@" ++ conn.server_addr ++ " " ++ ch ++ "\n"))],
       "RESULT JOIN " ++ target ++ " 0\n") := by
  unfold join
  simp only [hu, hsplit, hparse, hserv]
  simp only [String.append_assoc]
  congr 1

/-- C2 witness: the amended statement at a concrete directory, session and
target. -/
theorem C2_witness :
    join idParse c2Server c2Conn "room:9.9.9.9:1000" =
      (c2Server, [Effect.toServer 7
            (ServerMessage.CallbackMessage 3 "alice" (Response.Join "room")
              "FEDJOIN alice@1.1.1.1:4000 room\n")],
       "RESULT JOIN room:9.9.9.9:1000 0\n") := by
  have h := C2_remote_join_replies_zero_and_arms_callback idParse c2Server
    c2Conn "room:9.9.9.9:1000" "room" "9.9.9.9:1000" "alice" "9.9.9.9:1000"
    (RemoteServer.mk 7 []) rfl rfl rfl rfl
  simpa using h

/-- C3: once the callback-arming item for `FEDJOIN u@addr ch` has been
dequeued (writing the record and installing the callback), processing
`FEDRESULT u JOIN ch s` pops exactly the matching callback — afterwards the
key is gone and every other key is untouched — and enqueues exactly one
`RESULT JOIN ch s\n` on the originating client endpoint. -/
theorem C3_fedresult_join_pops_installed_callback (conn : ServerConnection)
    (u ch st m : String) (ep : ClientEp) :
    (drain_server_message conn
        (ServerMessage.CallbackMessage ep u (Response.Join ch) m)).2 = [m] ∧
    (fed_result_join (drain_server_message conn
        (ServerMessage.CallbackMessage ep u (Response.Join ch) m)).1 u ch st).2 =
      [Effect.toClient ep ("RESULT JOIN " ++ ch ++ " " ++ st ++ "\n")] ∧
    alookup (u, Response.Join ch)
      (fed_result_join (drain_server_message conn
        (ServerMessage.CallbackMessage ep u (Response.Join ch) m)).1 u ch st).1.callbacks
      = none ∧
    ∀ k, k ≠ (u, Response.Join ch) →
      alookup k (fed_result_join (drain_server_message conn
        (ServerMessage.CallbackMessage ep u (Response.Join ch) m)).1 u ch st).1.callbacks
        = alookup k conn.callbacks := by
  have hcb : (drain_server_message conn
      (ServerMessage.CallbackMessage ep u (Response.Join ch) m)).1.callbacks =
      ainsert (u, Response.Join ch) ep conn.callbacks := rfl
  have hl := alookup_ainsert_self (u, Response.Join ch) ep conn.callbacks
  refine ⟨rfl, ?_, ?_, ?_⟩
  · simp only [fed_result_join, hcb, hl]
  · simp only [fed_result_join, hcb, hl]
    exact alookup_aerase_self _ _
  · intro k hk
    simp only [fed_result_join, hcb, hl]
    rw [alookup_aerase_ne hk, alookup_ainsert_ne hk]

/-- C4: at a directory where channel `lobby` exists with member `alice`,
`fed_say` for `FEDSAY alice lobby hi` performs NO fan-out and reports
status 0 (the source calls `_say(server, &user.to_string(), user, channel)`,
treating `user` as the channel name and `channel` as the text); the correct
fan-out `_say server alice lobby hi` would deliver to the member and return
status 1. -/
theorem C4_fed_say_misroutes_fanout :
    fed_say c4Server "alice" "lobby" "hi" =
      ([], some "FEDRESULT alice SAY lobby 0 hi\n") ∧
    _say c4Server "alice" "lobby" "hi" =
      ([Effect.toClient 0 "RECV alice lobby hi\n"], true) :=
  ⟨rfl, rfl⟩

/-- C5: in every reachable directory the per-user endpoint map `user_conns`
is empty (no operation of the program inserts into it), and consequently
processing any `FEDRECV` record enqueues nothing on any client endpoint. -/
theorem C5_user_conns_always_empty (ops : List Op) (port : Nat) :
    (run ops (Server.new port)).user_conns = [] ∧
    ∀ to_user from_user channel msg,
      fed_recv (run ops (Server.new port)) to_user from_user channel msg =
        ([], none) := by
  have h : (run ops (Server.new port)).user_conns = [] := by
    rw [run_user_conns]; rfl
  refine ⟨h, fun t f c m => ?_⟩
  unfold fed_recv
  rw [h]
  rfl

/-- C6 counterexample: on the accepted connection `c6Sock` (near side
`2.2.2.2:10`, remote dialer `3.3.3.3:20`) processing the federate-out
request registers nothing under the remote (dialer's) address — the peer is
keyed under the accepter's own near-side address instead. -/
theorem C6_counterexample :
    alookup "3.3.3.3:20"
      (fed_out (Server.new 0) (init_server_connection c6Sock 5)).1.servers =
      none ∧
    alookup "2.2.2.2:10"
      (fed_out (Server.new 0) (init_server_connection c6Sock 5)).1.servers =
      some (RemoteServer.mk 5 []) :=
  ⟨rfl, rfl⟩

/-- C6 amended: processing the federate-out request registers the peer with
an empty advertised-channel set and replies `FEDCONFIRM\n`, but keyed by the
LOCALLY observed (near-side) address of the socket — `local_addr()` in
`process_server` — not the remote dialer's address; all other keys are
untouched. -/
theorem C6_fed_out_registers_local_addr (s : Server) (sock : SocketInfo)
    (ep : ServerEp) :
    (fed_out s (init_server_connection sock ep)).2 = some "FEDCONFIRM\n" ∧
    alookup sock.localAddr
      (fed_out s (init_server_connection sock ep)).1.servers =
      some (RemoteServer.mk ep []) ∧
    ∀ a, a ≠ sock.localAddr →
      alookup a (fed_out s (init_server_connection sock ep)).1.servers =
        alookup a s.servers := by
  refine ⟨rfl, alookup_ainsert_self _ _ _, fun a ha => alookup_ainsert_ne ha _ _⟩

/-- C7: a `SAY` whose preconditions for status 1 hold (logged in, channel
exists, speaker is a member) emits exactly one delivery per channel member —
`RECV u c m\n` on each Local member's endpoint (the speaker included) and
`FEDRECV name u c m\n` on each Remote member's peer endpoint — and nothing
else, and replies with status 1. -/
theorem C7_fanout_coverage (s : Server) (conn : ClientConnection)
    (u c m : String) (ch : Channel)
    (hu : conn.username = some u)
    (hc : alookup c s.channels = some ch)
    (hm : acontains u ch.users = true) :
    say s conn c m =
      (ch.users.map fun p =>
        match p.2 with
        | User.Local ep =>
          Effect.toClient ep ("RECV " ++ u ++ " " ++ c ++ " " ++ m ++ "\n")
        | User.Remote ep =>
          Effect.toServer ep (ServerMessage.Message
            ("FEDRECV " ++ p.1 ++ " " ++ u ++ " " ++ c ++ " " ++ m ++ "\n")),
       "RESULT SAY " ++ c ++ " 1\n") := by
  unfold say _say
  simp only [hu, hc, hm, if_true, statusStr]
  simp [String.append_assoc]

def c7Server : Server :=
  { port := 0, users := [], user_conns := [],
    channels := [("lobby", Channel.mk
      [("alice", User.Local 1), ("bob", User.Local 2),
       ("carol", User.Remote 9)])],
    servers := [] }

def c7Conn : ClientConnection :=
  { username := some "alice", channel := 1, server_addr := "1.1.1.1:1" }

/-- C7 witness: the fan-out at a concrete channel with two local members and
one remote member. -/
theorem C7_witness :
    say c7Server c7Conn "lobby" "hi there" =
      ([Effect.toClient 1 "RECV alice lobby hi there\n",
        Effect.toClient 2 "RECV alice lobby hi there\n",
        Effect.toServer 9
          (ServerMessage.Message "FEDRECV carol alice lobby hi there\n")],
       "RESULT SAY lobby 1\n") := by
  have h := C7_fanout_coverage c7Server c7Conn "alice" "lobby" "hi there"
    (Channel.mk [("alice", User.Local 1), ("bob", User.Local 2),
      ("carol", User.Remote 9)]) rfl rfl rfl
  simpa using h

/-- The success condition of a local join as the spec states it: logged in,
channel exists, username not yet a member. -/
def localJoinOk (s : Server) (conn : ClientConnection) (channel : String) :
    Bool :=
  match conn.username with
  | none => false
  | some u =>
    match alookup channel s.channels with
    | none => false
    | some c => !(acontains u c.users)

theorem join_local_cases (parseAddr : String → Option Addr) (s : Server)
    (conn : ClientConnection) (channel : String)
    (hl : splitOnce channel ':' = none) (u : String)
    (hu : conn.username = some u) :
    join parseAddr s conn channel =
      match alookup channel s.channels with
      | none => (s, [], "RESULT JOIN " ++ channel ++ " " ++ "0" ++ "\n")
      | some c =>
        if acontains u c.users then
          (s, [], "RESULT JOIN " ++ channel ++ " " ++ "0" ++ "\n")
        else
          ({ s with channels := ainsert channel (Channel.mk (ainsert u (User.Local conn.channel) c.users)) s.channels },
           [], "RESULT JOIN " ++ channel ++ " " ++ "1" ++ "\n") := by
  unfold join
  simp only [hu, hl]
  cases alookup channel s.channels with
  | none => rfl
  | some c =>
    by_cases hm : acontains u c.users = true
    · simp [hm]
    · simp [hm]

/-- C8: for a local `JOIN` (no colon in the target) the reply status is 1
exactly when the session is logged in, the channel exists and the username
is not yet a member; on status 0 the directory is unchanged; on status 1 the
Local membership is inserted and an immediate second `JOIN` of the same
channel by the same session replies 0. -/
theorem C8_local_join (parseAddr : String → Option Addr) (s : Server)
    (conn : ClientConnection) (channel : String)
    (hl : splitOnce channel ':' = none) :
    (join parseAddr s conn channel).2.2 =
      "RESULT JOIN " ++ channel ++ " " ++
        (if localJoinOk s conn channel then "1" else "0") ++ "\n" ∧
    (join parseAddr s conn channel).2.1 = [] ∧
    (localJoinOk s conn channel = false →
      (join parseAddr s conn channel).1 = s) ∧
    (∀ u c, conn.username = some u → alookup channel s.channels = some c →
      acontains u c.users = false →
      alookup channel (join parseAddr s conn channel).1.channels =
        some (Channel.mk (ainsert u (User.Local conn.channel) c.users)) ∧
      (join parseAddr (join parseAddr s conn channel).1 conn channel).2.2 =
        "RESULT JOIN " ++ channel ++ " " ++ "0" ++ "\n") := by
  cases hu : conn.username with
  | none =>
    have hok : localJoinOk s conn channel = false := by simp [localJoinOk, hu]
    have hj : join parseAddr s conn channel =
        (s, [], "RESULT JOIN " ++ channel ++ " " ++ "0" ++ "\n") := by
      unfold join; simp only [hu]
    rw [hj, hok]
    exact ⟨rfl, rfl, fun _ => rfl, fun u c huc _ _ => nomatch huc⟩
  | some u =>
    rw [join_local_cases parseAddr s conn channel hl u hu]
    cases hc : alookup channel s.channels with
    | none =>
      have hok : localJoinOk s conn channel = false := by
        simp [localJoinOk, hu, hc]
      rw [hok]
      exact ⟨rfl, rfl, fun _ => rfl,
        fun u' c' _ hc' _ => absurd hc' (by simp)⟩
    | some c =>
      dsimp only
      by_cases hm : acontains u c.users = true
      · have hok : localJoinOk s conn channel = false := by
          simp [localJoinOk, hu, hc, hm]
        rw [hok, if_pos hm]
        refine ⟨rfl, rfl, fun _ => rfl, ?_⟩
        intro u' c' hu' hc' hm'
        obtain rfl : u = u' := Option.some.inj hu'
        obtain rfl : c = c' := Option.some.inj hc'
        exact absurd hm (by simp [hm'])
      · have hmf : acontains u c.users = false := by
          revert hm; cases acontains u c.users <;> simp
        have hok : localJoinOk s conn channel = true := by
          simp [localJoinOk, hu, hc, hmf]
        rw [hok, if_neg hm]
        refine ⟨rfl, rfl, fun hfalse => absurd hfalse (by simp), ?_⟩
        intro u' c' hu' hc' hm'
        obtain rfl : u = u' := Option.some.inj hu'
        obtain rfl : c = c' := Option.some.inj hc'
        refine ⟨alookup_ainsert_self _ _ _, ?_⟩
        rw [join_local_cases parseAddr _ conn channel hl u hu]
        have h2 : alookup channel
            ({ s with channels := ainsert channel (Channel.mk (ainsert u (User.Local conn.channel) c.users)) s.channels } : Server).channels =
            some (Channel.mk (ainsert u (User.Local conn.channel) c.users)) :=
          alookup_ainsert_self _ _ _
        rw [h2]
        dsimp only
        rw [if_pos (by simp [acontains, alookup_ainsert_self])]

def c8Server : Server :=
  { port := 0, users := [("alice", "pw")], user_conns := [],
    channels := [("lobby", Channel.mk [])], servers := [] }

def c8Conn : ClientConnection :=
  { username := some "alice", channel := 2, server_addr := "1.1.1.1:1" }

/-- C8 witness: a logged-in session's first local join of an existing
channel succeeds. -/
theorem C8_witness :
    (join idParse c8Server c8Conn "lobby").2.2 = "RESULT JOIN lobby 1\n" := by
  have h := (C8_local_join idParse c8Server c8Conn "lobby" rfl).1
  rw [h]
  rfl

/-- C9: `CREATE name` replies status 0 and changes nothing when the channel
name exists; otherwise it inserts an empty channel and enqueues exactly one
`FEDNEW name\n` on the queue of every peer registered in the servers map
(one effect per entry, computed from the post-insert state), replying
status 1. -/
theorem C9_create (s : Server) (channel : String) :
    (acontains channel s.channels = true →
      create s channel = (s, [], "RESULT CREATE " ++ channel ++ " 0\n")) ∧
    (acontains channel s.channels = false →
      create s channel =
        ({ s with channels := ainsert channel (Channel.mk []) s.channels },
         s.servers.map fun p => Effect.toServer p.2.channel (ServerMessage.Message ("FEDNEW " ++ channel ++ "\n")),
         "RESULT CREATE " ++ channel ++ " 1\n") ∧
      alookup channel (create s channel).1.channels = some (Channel.mk [])) := by
  refine ⟨fun h => ?_, fun h => ?_⟩
  · unfold create
    rw [if_pos h]
  · have hc : create s channel =
        ({ s with channels := ainsert channel (Channel.mk []) s.channels },
         s.servers.map fun p => Effect.toServer p.2.channel (ServerMessage.Message ("FEDNEW " ++ channel ++ "\n")),
         "RESULT CREATE " ++ channel ++ " 1\n") := by
      unfold create
      rw [if_neg (by simp [h])]
    refine ⟨hc, ?_⟩
    rw [hc]
    exact alookup_ainsert_self _ _ _

def c9Server : Server :=
  { port := 0, users := [], user_conns := [], channels := [],
    servers := [("7.7.7.7:1", RemoteServer.mk 4 []),
                ("8.8.8.8:2", RemoteServer.mk 6 [])] }

/-- C9 witness: creating a fresh channel with two registered peers sends
one FEDNEW to each. -/
theorem C9_witness :
    create c9Server "room" =
      ({ c9Server with
          channels := ainsert "room" (Channel.mk []) c9Server.channels },
       [Effect.toServer 4 (ServerMessage.Message "FEDNEW room\n"),
        Effect.toServer 6 (ServerMessage.Message "FEDNEW room\n")],
       "RESULT CREATE room 1\n") := by
  have h := ((C9_create c9Server "room").2 rfl).1
  rw [h]
  rfl

/-- C10: processing `FEDCHANNELS` or `FEDNEW` on a peer session reaches the
`panic!()` branch exactly when the session's address is absent from the
servers map; `fed_out` / `fed_confirm` register that address, registration
persists under every later operation, and on a registered address the
handlers do not abort and only add the listed name(s) to that peer's
advertised set. -/
theorem C10_fed_channels_new_abort (s : Server) (conn : ServerConnection)
    (chs name : String) :
    (fed_channels s conn chs = none ↔
      alookup conn.server_addr s.servers = none) ∧
    (fed_new s conn name = none ↔
      alookup conn.server_addr s.servers = none) ∧
    (∀ s₀ : Server,
      alookup conn.server_addr (fed_out s₀ conn).1.servers =
        some (RemoteServer.mk conn.channel []) ∧
      alookup conn.server_addr (fed_confirm s₀ conn).1.servers =
        some (RemoteServer.mk conn.channel [])) ∧
    (∀ (ops : List Op) (s' : Server),
      (alookup conn.server_addr s'.servers).isSome = true →
      (alookup conn.server_addr (run ops s').servers).isSome = true) ∧
    (∀ r : RemoteServer, alookup conn.server_addr s.servers = some r →
      fed_channels s conn chs = some
        ({ s with servers := ainsert conn.server_addr (RemoteServer.mk r.channel ((splitChannels chs).foldl (fun acc c => insertSet c acc) r.channels)) s.servers },
         none) ∧
      fed_new s conn name = some
        ({ s with servers := ainsert conn.server_addr (RemoteServer.mk r.channel (insertSet name r.channels)) s.servers },
         none)) := by
  refine ⟨?_, ?_,
    fun s₀ => ⟨alookup_ainsert_self _ _ _, alookup_ainsert_self _ _ _⟩,
    fun ops s' h => run_servers_mono ops s' conn.server_addr h, ?_⟩
  · unfold fed_channels
    cases alookup conn.server_addr s.servers <;> simp
  · unfold fed_new
    cases alookup conn.server_addr s.servers <;> simp
  · intro r hr
    constructor
    · unfold fed_channels
      rw [hr]
    · unfold fed_new
      rw [hr]

def c10Conn : ServerConnection :=
  { channel := 8, server_addr := "6.6.6.6:1", callbacks := [] }

/-- C10 witness: on a fresh directory the session's address is not
registered, so processing a `FEDCHANNELS` record reaches the abort. -/
theorem C10_witness :
    fed_channels (Server.new 0) c10Conn "a, b" = none :=
  (C10_fed_channels_new_abort (Server.new 0) c10Conn "a, b" "a").1.mpr rfl

end ChatServer
